import Mathlib

/-!
Verification of the MEMORIX Web3 memory-challenge core against its
natural-language specification.

Shallow embedding of the on-chain reward ledger
(`src/contracts/MemorixGame.sol`) and of the server-side grading loop
(`src/server.js`).

Modelling conventions:
* Solidity integers are `Nat`.  Solidity 0.8 checked arithmetic reverts on
  overflow rather than wrapping, so no wrapped value is ever committed to
  storage.  The `uint256` counters and amounts are modelled unbounded (an
  overflow of a 256-bit accumulator is unreachable at the contract's
  magnitudes), but the one narrow-width arithmetic operation the contract
  performs — the checked `uint8` increment `currentLevel + 1` at
  `MemorixGame.sol` line 175, which reverts with `Panic(0x11)` once the
  stored level has reached 255 — is modelled faithfully by the explicit
  `GameError.Overflow` branch of `recordInfiniteRound`.
* Addresses are `Nat`, with `0` playing the role of `address(0)` (the
  sentinel "no player" value).
* A revert is modelled by `Except`: an operation that reverts returns
  `Except.error e` and produces no successor state, which is exactly
  Solidity's all-or-nothing transaction semantics.  Solidity division by
  zero is a revert (`Panic(0x12)`), modelled by `GameError.DivisionByZero`.
* `block.timestamp` is passed in as an explicit `now` argument.
* The `onlyOwner` modifier only restricts who may call an operation, not
  what it does; the claims quantify over calls that the owner makes, so the
  caller check is elided from the state transitions.
* `playerRounds` is an index (the ids of a player's rounds) derivable from
  the append-only `rounds` log by filtering on the player; the model keeps
  the log itself.
* Two ghost fields are carried for stating invariants: `lbPayouts`
  (cumulative leaderboard payouts per player, incremented exactly where
  `updateLeaderboard` credits a player) and `configured` (the set of dates
  for which `setDailyChallenge` has been called).  Neither influences any
  contract-visible field.
-/

/-- RoundType enum of `MemorixGame.sol`. -/
inductive RoundType where
  | INFINITE
  | DAILY_CHALLENGE
  deriving DecidableEq, Repr

/-- FailureReason enum of `MemorixGame.sol`. -/
inductive FailureReason where
  | NONE
  | WRONG_SEQUENCE
  | TIME_EXPIRED
  deriving DecidableEq, Repr

/-- Revert reasons of the contract, named after the spec's error taxonomy
(§7).  `InvalidSteps`, `InvalidCorrectSteps` and `InvalidGridSize` are the
three `require`s opening `recordInfiniteRound`; `NotVerified` covers both
the "Not verified" and the "Must complete perfectly within time" requires
of `recordDailyChallenge`, which the spec treats as one failure class;
`ArityMismatch` covers both length requires of `updateLeaderboard`;
`DivisionByZero` is the Solidity `Panic(0x12)` revert and `Overflow` the
`Panic(0x11)` revert of checked arithmetic (the `uint8` level increment). -/
inductive GameError where
  | InvalidSteps
  | InvalidCorrectSteps
  | InvalidGridSize
  | NotInitialized
  | AlreadyCompleted
  | NotVerified
  | ArityMismatch
  | NoRewards
  | InsufficientFunds
  | DivisionByZero
  | Overflow
  deriving DecidableEq, Repr

/-- The `Round` struct (settled, immutable round record). -/
structure Round where
  id : Nat
  player : Nat
  roundType : RoundType
  level : Nat
  gridSize : Nat
  steps : Nat
  score : Nat
  timeElapsedMs : Nat
  timeLimitMs : Nat
  correctSteps : Nat
  reward : Nat
  timestamp : Nat
  verified : Bool
  failureReason : FailureReason
  deriving Repr

/-- The `PlayerStats` struct. -/
structure PlayerStats where
  totalRounds : Nat
  totalScore : Nat
  totalRewards : Nat
  bestScore : Nat
  currentStreak : Nat
  currentLevel : Nat
  lastDailyChallengeDate : Nat
  timeoutsCount : Nat
  perfectRoundsCount : Nat
  deriving Repr

/-- Zero-initialised `PlayerStats`, the Solidity storage default. -/
def initPlayerStats : PlayerStats :=
  { totalRounds := 0, totalScore := 0, totalRewards := 0, bestScore := 0,
    currentStreak := 0, currentLevel := 0, lastDailyChallengeDate := 0,
    timeoutsCount := 0, perfectRoundsCount := 0 }

/-- The `DailyChallenge` struct. -/
structure DailyChallenge where
  date : Nat
  gridSize : Nat
  steps : Nat
  rewardPool : Nat
  showDuration : Nat
  intervalBetween : Nat
  timeLimitMs : Nat
  hasCompleted : Nat → Bool
  completers : List Nat

/-- Zero-initialised `DailyChallenge`, the Solidity storage default. -/
def initDailyChallenge : DailyChallenge :=
  { date := 0, gridSize := 0, steps := 0, rewardPool := 0, showDuration := 0,
    intervalBetween := 0, timeLimitMs := 0, hasCompleted := fun _ => false,
    completers := [] }

/-- The `LeaderboardEntry` struct. -/
structure LeaderboardEntry where
  player : Nat
  score : Nat
  level : Nat
  deriving DecidableEq, Repr

/-- The contract storage of `MemorixGame`, plus the escrowed ether balance
and the two ghost fields described in the header. -/
structure GameState where
  nextRoundId : Nat
  rounds : List Round
  pendingRewards : Nat → Nat
  playerStats : Nat → PlayerStats
  dailyChallenges : Nat → DailyChallenge
  currentDailyChallengeDate : Nat
  leaderboard : List LeaderboardEntry
  lastLeaderboardUpdate : Nat
  baseRewardPerStep : Nat
  timeBonusMultiplier : Nat
  dailyChallengeRewardPerCompletion : Nat
  leaderboardRewardPool : Nat
  balance : Nat
  lbPayouts : Nat → Nat
  configured : Nat → Bool

/-- Pointwise update of a `Nat`-keyed map (a Solidity mapping store). -/
def setFun {α : Type} (f : Nat → α) (k : Nat) (v : α) : Nat → α :=
  fun x => if x = k then v else f x

/-- The level the contract ascribes to a player: a stored level of `0`
(the storage default for a fresh player) is read as level `1`
(`MemorixGame.sol` line 136). -/
def effectiveLevel (st : PlayerStats) : Nat :=
  if st.currentLevel = 0 then 1 else st.currentLevel

/-- `calculateReward` (`MemorixGame.sol` lines 282-301).  The division is
by `timeLimitMs * 1000`; Solidity reverts when that denominator is zero,
modelled by the explicit `DivisionByZero` branch (Lean's `Nat` division
would otherwise silently return `0`). -/
def calculateReward (s : GameState) (steps correctSteps timeElapsedMs timeLimitMs : Nat) :
    Except GameError Nat :=
  if correctSteps = 0 then Except.ok 0
  else
    let reward := correctSteps * s.baseRewardPerStep
    let timeLeftMs := if timeElapsedMs < timeLimitMs then timeLimitMs - timeElapsedMs else 0
    if timeLimitMs * 1000 = 0 then Except.error GameError.DivisionByZero
    else
      let timeBonus := reward * timeLeftMs * s.timeBonusMultiplier / (timeLimitMs * 1000)
      let reward := reward + timeBonus
      let reward := if correctSteps = steps then reward + reward / 2 else reward
      Except.ok reward

/-- `recordInfiniteRound` (`MemorixGame.sol` lines 120-193).  In the
qualifying branch the source executes the checked `uint8` assignment
`stats.currentLevel = currentLevel + 1` (line 175); when the normalised
level is already 255 that increment overflows `uint8` and the whole call
reverts with `Panic(0x11)`, modelled by the `Overflow` branch. -/
def recordInfiniteRound (player score gridSize steps correctSteps timeElapsedMs timeLimitMs : Nat)
    (timeExpired verified : Bool) (now : Nat) (s : GameState) :
    Except GameError GameState :=
  if steps = 0 ∨ 50 < steps then Except.error GameError.InvalidSteps
  else if steps < correctSteps then Except.error GameError.InvalidCorrectSteps
  else if gridSize < 2 ∨ 10 < gridSize then Except.error GameError.InvalidGridSize
  else
    match (if timeExpired = false ∧ correctSteps = steps then
             calculateReward s steps correctSteps timeElapsedMs timeLimitMs
           else Except.ok 0) with
    | Except.error e => Except.error e
    | Except.ok reward =>
      let stats := s.playerStats player
      let currentLevel := if stats.currentLevel = 0 then 1 else stats.currentLevel
      let failureReason :=
        if timeExpired = true then FailureReason.TIME_EXPIRED
        else if correctSteps < steps then FailureReason.WRONG_SEQUENCE
        else FailureReason.NONE
      let timeouts := if timeExpired = true then stats.timeoutsCount + 1 else stats.timeoutsCount
      let r : Round :=
        { id := s.nextRoundId, player := player, roundType := RoundType.INFINITE,
          level := currentLevel, gridSize := gridSize, steps := steps, score := score,
          timeElapsedMs := timeElapsedMs, timeLimitMs := timeLimitMs,
          correctSteps := correctSteps, reward := reward, timestamp := now,
          verified := verified, failureReason := failureReason }
      if verified = true ∧ correctSteps = steps ∧ timeExpired = false then
        if 255 ≤ currentLevel then Except.error GameError.Overflow
        else
          Except.ok { s with
            nextRoundId := s.nextRoundId + 1,
            rounds := s.rounds ++ [r],
            playerStats :=
              (setFun s.playerStats player
                { stats with totalRounds := stats.totalRounds + 1,
                             totalScore := stats.totalScore + score,
                             timeoutsCount := timeouts,
                             totalRewards := stats.totalRewards + reward,
                             currentLevel := currentLevel + 1,
                             currentStreak := stats.currentStreak + 1,
                             perfectRoundsCount := stats.perfectRoundsCount + 1,
                             bestScore :=
                               if stats.bestScore < score then score else stats.bestScore }),
            pendingRewards := setFun s.pendingRewards player (s.pendingRewards player + reward) }
      else
        Except.ok { s with
          nextRoundId := s.nextRoundId + 1,
          rounds := s.rounds ++ [r],
          playerStats :=
            (setFun s.playerStats player
              { stats with totalRounds := stats.totalRounds + 1,
                           totalScore := stats.totalScore + score,
                           timeoutsCount := timeouts,
                           currentStreak := 0 }) }

/-- `recordDailyChallenge` (`MemorixGame.sol` lines 195-246). -/
def recordDailyChallenge (player date score correctSteps totalSteps timeElapsedMs timeLimitMs : Nat)
    (timeExpired verified : Bool) (now : Nat) (s : GameState) :
    Except GameError GameState :=
  let ch := s.dailyChallenges date
  if ch.date ≠ date then Except.error GameError.NotInitialized
  else if ch.hasCompleted player = true then Except.error GameError.AlreadyCompleted
  else if verified = false then Except.error GameError.NotVerified
  else if ¬(correctSteps = totalSteps ∧ timeExpired = false) then Except.error GameError.NotVerified
  else
    let reward := s.dailyChallengeRewardPerCompletion
    let stats := s.playerStats player
    let r : Round :=
      { id := s.nextRoundId, player := player, roundType := RoundType.DAILY_CHALLENGE,
        level := 0, gridSize := ch.gridSize, steps := ch.steps, score := score,
        timeElapsedMs := timeElapsedMs, timeLimitMs := timeLimitMs,
        correctSteps := correctSteps, reward := reward, timestamp := now,
        verified := verified, failureReason := FailureReason.NONE }
    Except.ok { s with
      dailyChallenges := (setFun s.dailyChallenges date
        { ch with hasCompleted := setFun ch.hasCompleted player true,
                  completers := ch.completers ++ [player] }),
      pendingRewards := setFun s.pendingRewards player (s.pendingRewards player + reward),
      playerStats := (setFun s.playerStats player
        { stats with totalScore := stats.totalScore + score,
                     totalRewards := stats.totalRewards + reward,
                     lastDailyChallengeDate := date,
                     perfectRoundsCount := stats.perfectRoundsCount + 1 }),
      rounds := s.rounds ++ [r],
      nextRoundId := s.nextRoundId + 1 }

/-- The fixed rank-weight table of `updateLeaderboard`
(`MemorixGame.sol` lines 252-263): 30/20/15/10/8/6/4/3/2/2 percent. -/
def rankWeights : List Nat := [30, 20, 15, 10, 8, 6, 4, 3, 2, 2]

/-- The reward for leaderboard rank `i`: `pool * rankWeights[i] / 100`,
integer division as in the source. -/
def rankReward (pool i : Nat) : Nat := pool * rankWeights.getD i 0 / 100

/-- One iteration of the `updateLeaderboard` loop body
(`MemorixGame.sol` lines 265-276): replace slot `i` of the leaderboard and,
for a non-sentinel player, credit `rankReward pool i` to `pendingRewards`
and `totalRewards` (and to the `lbPayouts` ghost). -/
def lbStep (pool : Nat) (topPlayers scores levels : List Nat) (st : GameState) (i : Nat) :
    GameState :=
  let p := topPlayers.getD i 0
  let st1 := { st with leaderboard :=
    (st.leaderboard.set i { player := p, score := scores.getD i 0, level := levels.getD i 0 }) }
  if p ≠ 0 then
    { st1 with
      pendingRewards := setFun st1.pendingRewards p (st1.pendingRewards p + rankReward pool i),
      playerStats := (setFun st1.playerStats p
        { st1.playerStats p with
          totalRewards := (st1.playerStats p).totalRewards + rankReward pool i }),
      lbPayouts := setFun st1.lbPayouts p (st1.lbPayouts p + rankReward pool i) }
  else st1

/-- `updateLeaderboard` (`MemorixGame.sol` lines 248-280). -/
def updateLeaderboard (topPlayers scores levels : List Nat) (now : Nat) (s : GameState) :
    Except GameError GameState :=
  if topPlayers.length ≠ 10 then Except.error GameError.ArityMismatch
  else if ¬(scores.length = 10 ∧ levels.length = 10) then Except.error GameError.ArityMismatch
  else
    let pool := s.leaderboardRewardPool
    let s' := (List.range 10).foldl (lbStep pool topPlayers scores levels) s
    Except.ok { s' with lastLeaderboardUpdate := now }

/-- `withdrawReward` (`MemorixGame.sol` lines 303-312).  The transferred
amount is returned alongside the successor state; the source zeroes the
pending balance before the transfer, and the committed result (pending
zeroed, balance debited by exactly the amount) is what the pure model
records. -/
def withdrawReward (player : Nat) (s : GameState) : Except GameError (Nat × GameState) :=
  let amount := s.pendingRewards player
  if amount = 0 then Except.error GameError.NoRewards
  else if s.balance < amount then Except.error GameError.InsufficientFunds
  else Except.ok (amount,
    { s with pendingRewards := setFun s.pendingRewards player 0,
             balance := s.balance - amount })

/-- `setDailyChallenge` (`MemorixGame.sol` lines 98-114); also marks the
date in the `configured` ghost. -/
def setDailyChallenge (date gridSize steps showDuration intervalBetween timeLimitMs : Nat)
    (s : GameState) : GameState :=
  let ch := s.dailyChallenges date
  { s with
    dailyChallenges :=
      (setFun s.dailyChallenges date
        { ch with date := date, gridSize := gridSize, steps := steps,
                  showDuration := showDuration, intervalBetween := intervalBetween,
                  timeLimitMs := timeLimitMs }),
    currentDailyChallengeDate := date,
    configured := setFun s.configured date true }

/-- `fundDailyChallenge` (`MemorixGame.sol` lines 116-118); payable, so the
escrowed balance also grows by `msg.value`. -/
def fundDailyChallenge (date msgValue : Nat) (s : GameState) : GameState :=
  let ch := s.dailyChallenges date
  { s with
    dailyChallenges :=
      (setFun s.dailyChallenges date { ch with rewardPool := ch.rewardPool + msgValue }),
    balance := s.balance + msgValue }

/-- `fundContract` / the `receive` fallback: a plain deposit. -/
def fundContract (msgValue : Nat) (s : GameState) : GameState :=
  { s with balance := s.balance + msgValue }

/-- `updateBaseReward` (`MemorixGame.sol` lines 334-336). -/
def updateBaseReward (v : Nat) (s : GameState) : GameState :=
  { s with baseRewardPerStep := v }

/-- `updateDailyChallengeReward` (`MemorixGame.sol` lines 338-340). -/
def updateDailyChallengeReward (v : Nat) (s : GameState) : GameState :=
  { s with dailyChallengeRewardPerCompletion := v }

/-- `updateLeaderboardPool` (`MemorixGame.sol` lines 342-344). -/
def updateLeaderboardPool (v : Nat) (s : GameState) : GameState :=
  { s with leaderboardRewardPool := v }

/-- `emergencyWithdraw` (`MemorixGame.sol` lines 348-350): drains the whole
escrowed balance to the owner. -/
def emergencyWithdraw (s : GameState) : GameState :=
  { s with balance := 0 }

/-- The freshly deployed contract: zeroed storage, the initial parameter
values of `MemorixGame.sol` lines 57-72 (`0.001 ether`, `100`,
`0.01 ether`, `1 ether` in wei), and an empty escrow. -/
def initState : GameState :=
  { nextRoundId := 1, rounds := [],
    pendingRewards := fun _ => 0,
    playerStats := fun _ => initPlayerStats,
    dailyChallenges := fun _ => initDailyChallenge,
    currentDailyChallengeDate := 0,
    leaderboard := List.replicate 10 { player := 0, score := 0, level := 0 },
    lastLeaderboardUpdate := 0,
    baseRewardPerStep := 1000000000000000,
    timeBonusMultiplier := 100,
    dailyChallengeRewardPerCompletion := 10000000000000000,
    leaderboardRewardPool := 1000000000000000000,
    balance := 0,
    lbPayouts := fun _ => 0,
    configured := fun _ => false }

/-- One successful transaction of the ledger.  Reverting calls produce no
transition (all-or-nothing semantics). -/
inductive Step : GameState → GameState → Prop where
  | recordInfinite {s s'} (player score gridSize steps correctSteps e l : Nat)
      (te v : Bool) (now : Nat) :
      recordInfiniteRound player score gridSize steps correctSteps e l te v now s =
        Except.ok s' → Step s s'
  | recordDaily {s s'} (player date score correctSteps totalSteps e l : Nat)
      (te v : Bool) (now : Nat) :
      recordDailyChallenge player date score correctSteps totalSteps e l te v now s =
        Except.ok s' → Step s s'
  | updateLb {s s'} (topPlayers scores levels : List Nat) (now : Nat) :
      updateLeaderboard topPlayers scores levels now s = Except.ok s' → Step s s'
  | withdraw {s s'} (player amount : Nat) :
      withdrawReward player s = Except.ok (amount, s') → Step s s'
  | setDaily {s} (date gridSize steps showDuration intervalBetween timeLimitMs : Nat) :
      Step s (setDailyChallenge date gridSize steps showDuration intervalBetween timeLimitMs s)
  | fundDaily {s} (date msgValue : Nat) :
      Step s (fundDailyChallenge date msgValue s)
  | fund {s} (msgValue : Nat) : Step s (fundContract msgValue s)
  | setBaseReward {s} (v : Nat) : Step s (updateBaseReward v s)
  | setDailyReward {s} (v : Nat) : Step s (updateDailyChallengeReward v s)
  | setLbPool {s} (v : Nat) : Step s (updateLeaderboardPool v s)
  | emergency {s} : Step s (emergencyWithdraw s)

/-- States the ledger can be in: everything the deployed contract can reach
by successful transactions. -/
inductive Reachable : GameState → Prop where
  | init : Reachable initState
  | step {s s'} : Reachable s → Step s s' → Reachable s'

/-!  Server-side grading (`src/server.js`). -/

/-- The grading loop of the infinite submit path (`src/server.js` lines
384-393): walk `i` from `0` to `min(clicked.length, sequence.length)`,
increment the counter on a positional match, break at the first mismatch.
`n` is the loop bound, `i` the loop counter. -/
def gradeCountFrom (clicked sequence : List Nat) (n i : Nat) : Nat :=
  if h : i < n then
    if clicked.getD i 0 = sequence.getD i 0 then gradeCountFrom clicked sequence n (i + 1) + 1
    else 0
  else 0
termination_by n - i
decreasing_by omega

/-- `correctSteps` as the infinite submit path computes it
(`src/server.js` lines 384-393): the clicked indices are the `.index`
projection of the submitted clicks. -/
def gradeClicksInfinite (clicked sequence : List Nat) : Nat :=
  gradeCountFrom clicked sequence (min clicked.length sequence.length) 0

/-- `correctSteps` as the daily submit path computes it
(`src/server.js` lines 593-601); the code is verbatim the same loop as the
infinite path. -/
def gradeClicksDaily (clicked sequence : List Nat) : Nat :=
  gradeCountFrom clicked sequence (min clicked.length sequence.length) 0

/-- Length of the longest common prefix of two lists, the reference
grading the spec describes ("position-by-position comparison that stops
counting at the first mismatch"). -/
def lcpLen : List Nat → List Nat → Nat
  | a :: as, b :: bs => if a = b then lcpLen as bs + 1 else 0
  | _, _ => 0

/-!  Spec-side reward formula and accounting sums. -/

/-- The infinite-mode reward formula as the spec's words state it:
`reward = correctSteps * baseRewardPerStep`; then
`reward += reward * timeLeftFraction * timeBonusMultiplier / 1000`, whose
exact integer form is `reward * timeLeftMs * mult / (timeLimitMs * 1000)`
with `timeLeftMs = max 0 (timeLimitMs - timeElapsedMs)`; then, if the
round is perfect, `reward += reward / 2` with integer division. -/
def specReward (base mult steps correctSteps timeElapsedMs timeLimitMs : Nat) : Nat :=
  let reward := correctSteps * base
  let timeLeftMs := if timeElapsedMs < timeLimitMs then timeLimitMs - timeElapsedMs else 0
  let reward := reward + reward * timeLeftMs * mult / (timeLimitMs * 1000)
  if correctSteps = steps then reward + reward / 2 else reward

/-- Sum of the `reward` fields of all settled rounds belonging to a player
(the quantity C2 speaks about). -/
def allRoundRewards (p : Nat) (rounds : List Round) : Nat :=
  ((rounds.filter (fun r => r.player == p)).map Round.reward).sum

/-- Sum of the `reward` fields of a player's settled rounds that are
verified.  The contract only credits `totalRewards` for verified rounds,
and it stores reward `0` in every verified round that does not qualify, so
this is the sum of the rewards the round path actually credited. -/
def creditedRoundRewards (p : Nat) (rounds : List Round) : Nat :=
  ((rounds.filter (fun r => r.player == p && r.verified)).map Round.reward).sum

/-- Sum of `pendingRewards` over the players `0, 1, ..., n-1`.  Every
reachable state credits only finitely many players, so the total
withdrawable amount of C3 is this sum for a large enough `n`. -/
def totalPendingUpTo (s : GameState) : Nat → Nat
  | 0 => 0
  | n + 1 => totalPendingUpTo s n + s.pendingRewards n

/-- Amount `updateLeaderboard` credits to player `q` while processing the
ranks in `L`: nothing for the sentinel `0`, otherwise the sum of
`rankReward pool i` over the ranks `i ∈ L` whose entry is `q`. -/
def lbCreditList (pool : Nat) (topPlayers : List Nat) (L : List Nat) (q : Nat) : Nat :=
  if q = 0 then 0
  else (((L.filter (fun i => topPlayers.getD i 0 == q))).map (rankReward pool)).sum

/-- Amount one `updateLeaderboard` call credits to player `q`. -/
def lbCredit (pool : Nat) (topPlayers : List Nat) (q : Nat) : Nat :=
  lbCreditList pool topPlayers (List.range 10) q

/-- Sum of the whole per-rank reward table. -/
def rankRewardTotal (pool : Nat) : Nat :=
  ((List.range 10).map (rankReward pool)).sum

/-- Total amount one `updateLeaderboard` call pays out, summed over the
non-sentinel ranks. -/
def creditedTotal (pool : Nat) (topPlayers : List Nat) : Nat :=
  (((List.range 10).filter (fun i => topPlayers.getD i 0 != 0)).map (rankReward pool)).sum

/-- Extract the successor state of a successful call (used only to name
concrete reachable states in witnesses and counterexamples). -/
def okStateOr (d : GameState) : Except GameError GameState → GameState
  | Except.ok s => s
  | Except.error _ => d

/-- The state after one `recordInfiniteRound` call on the fresh contract
recording a perfect in-time round that is NOT verified: the stored round
carries the computed reward (`1.65e15 wei`) but nothing is credited. -/
def unverifiedRoundState : GameState :=
  okStateOr initState (recordInfiniteRound 1 0 2 1 1 0 1000 false false 0 initState)

/-- The state after one `recordInfiniteRound` call on the fresh (never
funded) contract recording a perfect in-time VERIFIED round: the player is
credited `1.65e15 wei` of pending rewards while the escrowed balance is
still `0`. -/
def verifiedRoundState : GameState :=
  okStateOr initState (recordInfiniteRound 1 0 2 1 1 0 1000 false true 0 initState)

/-- A ledger state with `5 wei` pending for player 1 and a covering
balance (withdraw-witness input). -/
def pendingCoveredState : GameState :=
  { initState with pendingRewards := fun p => if p = 1 then 5 else 0, balance := 10 }

/-- A ledger state with `5 wei` pending for player 1 but only `3 wei` of
escrowed balance (insufficient-funds witness input). -/
def pendingShortState : GameState :=
  { initState with pendingRewards := fun p => if p = 1 then 5 else 0, balance := 3 }

/-- A ledger state in which player 1's stored level has reached 255, the
`uint8` maximum — the state left by 254 perfect verified rounds.  One more
qualifying round would execute `currentLevel + 1` on 255 and revert. -/
def levelCapState : GameState :=
  { initState with
    playerStats := fun p => if p = 1 then { initPlayerStats with currentLevel := 255 }
                            else initPlayerStats }

/-- The state left by player 1 draining `pendingCoveredState`. -/
def afterWithdrawState : GameState :=
  ((withdrawReward 1 pendingCoveredState).toOption.getD (0, initState)).2

/-- The fresh contract after the owner configures the daily challenge of
date `20240101`. -/
def dailyCfgState : GameState :=
  setDailyChallenge 20240101 4 8 400 250 60000 initState

/-- `dailyCfgState` after player 1 completes that challenge perfectly. -/
def dailyDoneState : GameState :=
  okStateOr initState (recordDailyChallenge 1 20240101 100 8 8 1000 60000 false true 0 dailyCfgState)

/-- The state after `recordDailyChallenge` for the never-configured date
`0` on the fresh contract: the uninitialised-slot check `challenge.date ==
date` passes (both sides are `0`), so the call succeeds and credits the
fixed daily reward. -/
def zeroDateState : GameState :=
  okStateOr initState (recordDailyChallenge 1 0 0 0 0 0 0 false true 0 initState)

/-- The inductive invariant of the reachable ledger states:
(1) per player, `totalRewards` is the sum of the rewards of that player's
verified settled rounds plus the leaderboard payouts received;
(2) a challenge slot's stored `date` equals its key exactly when the date
has been configured or the key is `0` (the storage default collides with
key `0`);
(3) a completed (date, player) pair implies the date's slot stores that
date. -/
def LedgerInv (s : GameState) : Prop :=
  (∀ p, (s.playerStats p).totalRewards = creditedRoundRewards p s.rounds + s.lbPayouts p)
  ∧ (∀ d, (s.dailyChallenges d).date = d ↔ (s.configured d = true ∨ d = 0))
  ∧ (∀ d p, (s.dailyChallenges d).hasCompleted p = true → (s.dailyChallenges d).date = d)

/-!  Helper lemmas. -/

lemma lcpLen_nil_left (l : List Nat) : lcpLen [] l = 0 := by cases l <;> rfl

lemma lcpLen_nil_right (l : List Nat) : lcpLen l [] = 0 := by cases l <;> rfl

lemma gradeCountFrom_eq_lcpLen (clicked sequence : List Nat) :
    ∀ k i, min clicked.length sequence.length ≤ i + k →
      gradeCountFrom clicked sequence (min clicked.length sequence.length) i =
        lcpLen (clicked.drop i) (sequence.drop i) := by
  intro k
  induction k with
  | zero =>
    intro i hi
    rw [gradeCountFrom, dif_neg (by omega)]
    rcases min_le_iff.mp (by omega : min clicked.length sequence.length ≤ i) with h | h
    · rw [List.drop_eq_nil_of_le h, lcpLen_nil_left]
    · rw [List.drop_eq_nil_of_le h, lcpLen_nil_right]
  | succ k ih =>
    intro i hi
    by_cases h : i < min clicked.length sequence.length
    · have hc : i < clicked.length := lt_of_lt_of_le h (min_le_left _ _)
      have hs : i < sequence.length := lt_of_lt_of_le h (min_le_right _ _)
      rw [gradeCountFrom, dif_pos h]
      rw [List.drop_eq_getElem_cons hc, List.drop_eq_getElem_cons hs]
      have hgc : clicked.getD i 0 = clicked[i] := by
        simp [List.getD_eq_getElem?_getD, List.getElem?_eq_getElem hc]
      have hgs : sequence.getD i 0 = sequence[i] := by
        simp [List.getD_eq_getElem?_getD, List.getElem?_eq_getElem hs]
      rw [hgc, hgs, lcpLen]
      by_cases he : clicked[i] = sequence[i]
      · rw [if_pos he, if_pos he, ih (i + 1) (by omega)]
      · rw [if_neg he, if_neg he]
    · rw [gradeCountFrom, dif_neg h]
      rcases min_le_iff.mp (by omega : min clicked.length sequence.length ≤ i) with hl | hl
      · rw [List.drop_eq_nil_of_le hl, lcpLen_nil_left]
      · rw [List.drop_eq_nil_of_le hl, lcpLen_nil_right]

/-- C10: for every stored sequence and every submitted list of clicked tile
indices, the graded `correctSteps` equals the length of the longest common
prefix of the clicked-index list and the stored sequence (the
position-by-position comparison stops counting at the first mismatch), in
both the infinite and the daily submit paths. -/
theorem grading_matches_lcp (clicked sequence : List Nat) :
    gradeClicksInfinite clicked sequence = lcpLen clicked sequence ∧
    gradeClicksDaily clicked sequence = lcpLen clicked sequence := by
  have h := gradeCountFrom_eq_lcpLen clicked sequence
      (min clicked.length sequence.length) 0 (by omega)
  simp only [List.drop_zero] at h
  exact ⟨h, h⟩

/-- C6 (amended): for every nonzero time limit, the infinite-mode reward
computation equals the spec's formula: `reward = correctSteps *
baseRewardPerStep`, then `reward += reward * timeLeftMs *
timeBonusMultiplier / (timeLimitMs * 1000)` (the integer form of
`reward * timeLeftFraction * timeBonusMultiplier / 1000`), then, if the
round is perfect, `reward += reward / 2` with integer division rounding
down.  The claim's further assertion that the division is guarded against
a zero time limit and the computation is total for `timeLimitMs = 0` fails
on the code: see the counterexample. -/
theorem calculateReward_matches_spec_formula (s : GameState)
    (steps correctSteps timeElapsedMs timeLimitMs : Nat) (hl : 0 < timeLimitMs) :
    calculateReward s steps correctSteps timeElapsedMs timeLimitMs =
      Except.ok (specReward s.baseRewardPerStep s.timeBonusMultiplier
        steps correctSteps timeElapsedMs timeLimitMs) := by
  unfold calculateReward specReward
  by_cases h0 : correctSteps = 0
  · subst h0
    simp
  · rw [if_neg h0, if_neg (by omega : ¬ timeLimitMs * 1000 = 0)]

/-- C6 witness: the spec's own §8 scenario.  `gridSize=3, steps=5,
correctSteps=5, elapsedMs=2500, timeLimitMs=10000` with the deployed
parameters (`baseRewardPerStep = 0.001 ether`, `timeBonusMultiplier =
100`) yields `0.0080625 ether = 8062500000000000 wei`. -/
theorem calculateReward_matches_spec_formula_witness :
    0 < 10000 ∧
    calculateReward initState 5 5 2500 10000 =
      Except.ok (specReward initState.baseRewardPerStep initState.timeBonusMultiplier
        5 5 2500 10000) ∧
    specReward initState.baseRewardPerStep initState.timeBonusMultiplier 5 5 2500 10000 =
      8062500000000000 :=
  ⟨by decide, calculateReward_matches_spec_formula initState 5 5 2500 10000 (by decide),
   by decide⟩

/-- C6 counterexample: the computation is not total in the time limit.
With `timeLimitMs = 0` (and a nonzero `correctSteps`, so the early return
does not fire) the division is by `0 * 1000 = 0`, which reverts in
Solidity (`Panic(0x12)`); there is no guard. -/
theorem calculateReward_div_by_zero_time_limit :
    calculateReward initState 1 1 0 0 = Except.error GameError.DivisionByZero := rfl

lemma setFun_same {α : Type} (f : Nat → α) (k : Nat) (v : α) : setFun f k v k = v := by
  simp [setFun]

lemma setFun_other {α : Type} (f : Nat → α) (k x : Nat) (v : α) (h : x ≠ k) :
    setFun f k v x = f x := by
  simp [setFun, h]

lemma calculateReward_ok (s : GameState) (steps correctSteps timeElapsedMs timeLimitMs : Nat)
    (hl : 0 < timeLimitMs) :
    ∃ r, calculateReward s steps correctSteps timeElapsedMs timeLimitMs = Except.ok r := by
  unfold calculateReward
  by_cases h0 : correctSteps = 0
  · exact ⟨0, by rw [if_pos h0]⟩
  · exact ⟨_, by rw [if_neg h0, if_neg (by omega : ¬ timeLimitMs * 1000 = 0)]⟩

/-- C1 (amended): for every ledger state in which the player's stored
level is below 255 (the `uint8` maximum) and every `recordInfiniteRound`
call with valid inputs (`0 < steps ≤ 50`, `correctSteps = steps`,
`gridSize ∈ [2,10]`) and a nonzero time limit, where `verified = true` and
`timeExpired = false`: the call succeeds, the player's level — which the
contract reads as `max(stored, 1)`, see `effectiveLevel` — increments by
exactly 1, `currentStreak` increments by exactly 1, and `bestScore`
becomes `max bestScore score` (so it never decreases).  The claim as
frozen, quantified over every player state and every time limit, fails on
two revert paths — the unguarded division at `timeLimitMs = 0` and the
checked `uint8` increment at stored level 255: see the counterexample. -/
theorem perfect_infinite_round_levels_up (s : GameState)
    (player score gridSize steps correctSteps timeElapsedMs timeLimitMs now : Nat)
    (hsteps : 0 < steps) (hsteps50 : steps ≤ 50) (hcs : correctSteps = steps)
    (hg2 : 2 ≤ gridSize) (hg10 : gridSize ≤ 10) (hl : 0 < timeLimitMs)
    (hlvl : (s.playerStats player).currentLevel < 255) :
    ∃ s', recordInfiniteRound player score gridSize steps correctSteps timeElapsedMs timeLimitMs
            false true now s = Except.ok s'
      ∧ effectiveLevel (s'.playerStats player) = effectiveLevel (s.playerStats player) + 1
      ∧ (s'.playerStats player).currentStreak = (s.playerStats player).currentStreak + 1
      ∧ (s'.playerStats player).bestScore = max (s.playerStats player).bestScore score := by
  obtain ⟨r, hr⟩ := calculateReward_ok s steps correctSteps timeElapsedMs timeLimitMs hl
  unfold recordInfiniteRound
  rw [if_neg (by omega), if_neg (by omega), if_neg (by omega), if_pos ⟨rfl, hcs⟩, hr]
  dsimp only
  rw [if_pos ⟨rfl, hcs, rfl⟩,
      if_neg (by
        by_cases h0 : (s.playerStats player).currentLevel = 0
        · rw [if_pos h0]; omega
        · rw [if_neg h0]; omega)]
  refine ⟨_, rfl, ?_, ?_, ?_⟩
  · simp [setFun, effectiveLevel]
  · simp [setFun]
  · simp [setFun, Nat.max_def]
    split <;> split <;> omega

/-- C1 witness: a fresh player (stored level `0 < 255`) completing a
perfect verified round (`steps = 5`, `gridSize = 3`, `2500 ms` of a
`10000 ms` limit). -/
theorem perfect_infinite_round_levels_up_witness :
    (0 < 5 ∧ 5 ≤ 50 ∧ 2 ≤ 3 ∧ 3 ≤ 10 ∧ 0 < 10000 ∧
      (initState.playerStats 1).currentLevel < 255) ∧
    (∃ s', recordInfiniteRound 1 700 3 5 5 2500 10000 false true 0 initState = Except.ok s'
      ∧ effectiveLevel (s'.playerStats 1) = effectiveLevel (initState.playerStats 1) + 1
      ∧ (s'.playerStats 1).currentStreak = (initState.playerStats 1).currentStreak + 1
      ∧ (s'.playerStats 1).bestScore = max (initState.playerStats 1).bestScore 700) :=
  ⟨by decide,
   perfect_infinite_round_levels_up initState 1 700 3 5 5 2500 10000 0
     (by decide) (by decide) rfl (by decide) (by decide) (by decide) (by decide)⟩

/-- C1 counterexample: two revert paths falsify the claim as frozen, whose
hypotheses (`0 < steps ≤ 50`, `correctSteps = steps`, `gridSize ∈ [2,10]`,
`verified = true`, `timeExpired = false`) are met in both instances.
First, with a zero time limit the qualifying branch calls
`calculateReward`, whose division by `timeLimitMs * 1000 = 0` reverts the
whole transaction (`Panic(0x12)`).  Second, when the player's stored
level has reached 255 — the state 254 perfect verified rounds leave
behind — the checked `uint8` increment `currentLevel + 1` overflows and
reverts (`Panic(0x11)`).  In both cases `currentLevel` and
`currentStreak` do not increment. -/
theorem perfect_infinite_round_reverts_cex :
    recordInfiniteRound 1 700 2 1 1 0 0 false true 0 initState =
      Except.error GameError.DivisionByZero
    ∧ recordInfiniteRound 1 700 2 1 1 0 1000 false true 0 levelCapState =
      Except.error GameError.Overflow :=
  ⟨rfl, rfl⟩

/-- C8: for every `recordInfiniteRound` call with valid inputs in which
`correctSteps < steps` or `timeExpired = true` (whatever the `verified`
flag), the call succeeds, the player's `currentStreak` is reset to 0 and
the stored `currentLevel` is unchanged. -/
theorem failed_infinite_round_resets_streak (s : GameState)
    (player score gridSize steps correctSteps timeElapsedMs timeLimitMs : Nat)
    (timeExpired verified : Bool) (now : Nat)
    (hsteps : 0 < steps) (hsteps50 : steps ≤ 50) (hcs : correctSteps ≤ steps)
    (hg2 : 2 ≤ gridSize) (hg10 : gridSize ≤ 10)
    (hfail : correctSteps < steps ∨ timeExpired = true) :
    ∃ s', recordInfiniteRound player score gridSize steps correctSteps timeElapsedMs timeLimitMs
            timeExpired verified now s = Except.ok s'
      ∧ (s'.playerStats player).currentStreak = 0
      ∧ (s'.playerStats player).currentLevel = (s.playerStats player).currentLevel := by
  have hnq : ¬(timeExpired = false ∧ correctSteps = steps) := by
    rintro ⟨h1, h2⟩
    rcases hfail with h | h
    · omega
    · rw [h] at h1; exact Bool.noConfusion h1
  have hnq' : ¬(verified = true ∧ correctSteps = steps ∧ timeExpired = false) := by
    rintro ⟨_, h2, h1⟩
    exact hnq ⟨h1, h2⟩
  unfold recordInfiniteRound
  rw [if_neg (by omega), if_neg (by omega), if_neg (by omega), if_neg hnq]
  dsimp only
  rw [if_neg hnq']
  refine ⟨_, rfl, ?_, ?_⟩
  · simp [setFun]
  · simp [setFun]

/-- C8 witness: a verified but imperfect round (3 of 5 steps) on a player
whose stored level and streak are nonzero. -/
theorem failed_infinite_round_resets_streak_witness :
    (0 < 5 ∧ 5 ≤ 50 ∧ 3 ≤ 5 ∧ 2 ≤ 3 ∧ 3 ≤ 10 ∧ (3 < 5 ∨ true = true)) ∧
    (∃ s', recordInfiniteRound 1 90 3 5 3 2500 10000 false true 0 initState = Except.ok s'
      ∧ (s'.playerStats 1).currentStreak = 0
      ∧ (s'.playerStats 1).currentLevel = (initState.playerStats 1).currentLevel) :=
  ⟨by decide,
   failed_infinite_round_resets_streak initState 1 90 3 5 3 2500 10000 false true 0
     (by decide) (by decide) (by decide) (by decide) (by decide) (Or.inl (by decide))⟩

/-- C4: per-player withdrawal semantics. (a) Withdrawing with zero pending
fails with NoRewards. (b) After a player with zero pending is credited an
amount `X > 0` that the escrow covers, withdrawing yields exactly `X`,
leaves pending at zero and the balance debited by exactly `X`, and an
immediate second withdrawal fails with NoRewards — no double-spend.
(c) When the escrowed balance is below the pending amount the call fails
with InsufficientFunds, and — by the all-or-nothing revert semantics of
the embedding — pendingRewards is unchanged. -/
theorem withdraw_drain_semantics :
    (∀ (s : GameState) (player : Nat), s.pendingRewards player = 0 →
        withdrawReward player s = Except.error GameError.NoRewards)
    ∧ (∀ (s : GameState) (player X : Nat), 0 < X → s.pendingRewards player = X →
        X ≤ s.balance →
        ∃ s', withdrawReward player s = Except.ok (X, s')
          ∧ s'.pendingRewards player = 0
          ∧ s'.balance = s.balance - X
          ∧ withdrawReward player s' = Except.error GameError.NoRewards)
    ∧ (∀ (s : GameState) (player : Nat), 0 < s.pendingRewards player →
        s.balance < s.pendingRewards player →
        withdrawReward player s = Except.error GameError.InsufficientFunds) := by
  refine ⟨?_, ?_, ?_⟩
  · intro s player h
    unfold withdrawReward
    rw [if_pos h]
  · intro s player X hX hpend hbal
    unfold withdrawReward
    rw [hpend, if_neg (by omega), if_neg (by omega)]
    refine ⟨_, rfl, ?_, rfl, ?_⟩
    · exact setFun_same _ _ _
    · simp [withdrawReward, setFun]
  · intro s player h hb
    unfold withdrawReward
    rw [if_neg (by omega), if_pos hb]

/-- C4 witness: player 1 on the fresh ledger (zero pending), then on a
ledger with `5 wei` pending and `10 wei` escrowed, then on a ledger with
`5 wei` pending and only `3 wei` escrowed. -/
theorem withdraw_drain_semantics_witness :
    (initState.pendingRewards 1 = 0 ∧
      withdrawReward 1 initState = Except.error GameError.NoRewards)
    ∧ (0 < 5 ∧ pendingCoveredState.pendingRewards 1 = 5 ∧ 5 ≤ pendingCoveredState.balance ∧
      (∃ s', withdrawReward 1 pendingCoveredState = Except.ok (5, s')
        ∧ s'.pendingRewards 1 = 0
        ∧ s'.balance = pendingCoveredState.balance - 5
        ∧ withdrawReward 1 s' = Except.error GameError.NoRewards))
    ∧ (0 < pendingShortState.pendingRewards 1 ∧
      pendingShortState.balance < pendingShortState.pendingRewards 1 ∧
      withdrawReward 1 pendingShortState = Except.error GameError.InsufficientFunds) :=
  ⟨⟨rfl, withdraw_drain_semantics.1 initState 1 rfl⟩,
   ⟨by decide, by decide, by decide,
    withdraw_drain_semantics.2.1 pendingCoveredState 1 5 (by decide) (by decide) (by decide)⟩,
   ⟨by decide, by decide,
    withdraw_drain_semantics.2.2 pendingShortState 1 (by decide) (by decide)⟩⟩

lemma lbCreditList_nil (pool : Nat) (tp : List Nat) (q : Nat) :
    lbCreditList pool tp [] q = 0 := by
  simp [lbCreditList]

lemma lbCreditList_cons (pool : Nat) (tp : List Nat) (i : Nat) (L : List Nat) (q : Nat) :
    lbCreditList pool tp (i :: L) q =
      (if q ≠ 0 ∧ tp.getD i 0 = q then rankReward pool i else 0) + lbCreditList pool tp L q := by
  unfold lbCreditList
  by_cases hq : q = 0
  · simp [hq]
  · rw [if_neg hq, if_neg hq]
    rw [List.filter_cons]
    by_cases hi : tp.getD i 0 = q
    · rw [if_pos (by simpa using hi), if_pos ⟨hq, hi⟩]
      simp
    · rw [if_neg (by simpa using hi), if_neg (by tauto)]
      simp

lemma lbStep_fields (pool : Nat) (tp sc lv : List Nat) (st : GameState) (i : Nat) :
    (lbStep pool tp sc lv st i).rounds = st.rounds
    ∧ (lbStep pool tp sc lv st i).dailyChallenges = st.dailyChallenges
    ∧ (lbStep pool tp sc lv st i).configured = st.configured
    ∧ ∀ q, (lbStep pool tp sc lv st i).pendingRewards q =
             st.pendingRewards q + (if q ≠ 0 ∧ tp.getD i 0 = q then rankReward pool i else 0)
        ∧ ((lbStep pool tp sc lv st i).playerStats q).totalRewards =
             (st.playerStats q).totalRewards +
               (if q ≠ 0 ∧ tp.getD i 0 = q then rankReward pool i else 0)
        ∧ (lbStep pool tp sc lv st i).lbPayouts q =
             st.lbPayouts q + (if q ≠ 0 ∧ tp.getD i 0 = q then rankReward pool i else 0) := by
  unfold lbStep
  by_cases hp : tp.getD i 0 ≠ 0
  · rw [if_pos hp]
    dsimp only
    refine ⟨rfl, rfl, rfl, ?_⟩
    intro q
    by_cases hq : q = tp.getD i 0
    · rw [hq, setFun_same, setFun_same, setFun_same, if_pos ⟨hp, rfl⟩]
      exact ⟨rfl, rfl, rfl⟩
    · rw [setFun_other _ _ _ _ hq, setFun_other _ _ _ _ hq, setFun_other _ _ _ _ hq,
          if_neg (fun hc => hq hc.2.symm)]
      exact ⟨rfl, rfl, rfl⟩
  · rw [if_neg hp]
    push_neg at hp
    dsimp only
    refine ⟨rfl, rfl, rfl, ?_⟩
    intro q
    rw [if_neg (fun hc => hc.1 (by rw [← hc.2, hp]))]
    exact ⟨rfl, rfl, rfl⟩

lemma lb_foldl_fields (pool : Nat) (tp sc lv : List Nat) :
    ∀ (L : List Nat) (st : GameState),
      (L.foldl (lbStep pool tp sc lv) st).rounds = st.rounds
      ∧ (L.foldl (lbStep pool tp sc lv) st).dailyChallenges = st.dailyChallenges
      ∧ (L.foldl (lbStep pool tp sc lv) st).configured = st.configured
      ∧ ∀ q, (L.foldl (lbStep pool tp sc lv) st).pendingRewards q =
               st.pendingRewards q + lbCreditList pool tp L q
          ∧ ((L.foldl (lbStep pool tp sc lv) st).playerStats q).totalRewards =
               (st.playerStats q).totalRewards + lbCreditList pool tp L q
          ∧ (L.foldl (lbStep pool tp sc lv) st).lbPayouts q =
               st.lbPayouts q + lbCreditList pool tp L q := by
  intro L
  induction L with
  | nil => intro st; simp [lbCreditList_nil]
  | cons i L ih =>
    intro st
    rw [List.foldl_cons]
    obtain ⟨hr, hd, hc, hq⟩ := ih (lbStep pool tp sc lv st i)
    obtain ⟨sr, sd, scf, sq⟩ := lbStep_fields pool tp sc lv st i
    refine ⟨by rw [hr, sr], by rw [hd, sd], by rw [hc, scf], ?_⟩
    intro q
    obtain ⟨hq1, hq2, hq3⟩ := hq q
    obtain ⟨sq1, sq2, sq3⟩ := sq q
    rw [lbCreditList_cons]
    exact ⟨by rw [hq1, sq1]; omega, by rw [hq2, sq2]; omega, by rw [hq3, sq3]; omega⟩

lemma sum_map_filter_le (f : Nat → Nat) (p : Nat → Bool) :
    ∀ L : List Nat, ((L.filter p).map f).sum ≤ (L.map f).sum := by
  intro L
  induction L with
  | nil => simp
  | cons i L ih =>
    rw [List.filter_cons]
    by_cases hp : p i = true
    · rw [if_pos hp]
      simp only [List.map_cons, List.sum_cons]
      omega
    · rw [if_neg hp]
      simp only [List.map_cons, List.sum_cons]
      omega

/-- C7: `updateLeaderboard` (a) fails with ArityMismatch whenever any of
the three arrays has fewer than 10 entries; (b) with exactly 10 entries it
succeeds, crediting every player `q` with `lbCredit pool tp q` — the sum of
`pool * rankWeight[i] / 100` over the ranks `i` holding `q` — on both
`pendingRewards` and `totalRewards`, crediting the zero-address sentinel
nothing, and paying out in total at most the whole rank-reward table; and
(c) the rank-reward table sums to `pool * sum(rankWeights) / 100 = pool` up
to an integer-rounding loss of at most `9 wei` and never exceeds the
pool. -/
theorem leaderboard_payout_weights :
    (∀ (tp sc lv : List Nat) (now : Nat) (s : GameState),
        tp.length < 10 ∨ sc.length < 10 ∨ lv.length < 10 →
        updateLeaderboard tp sc lv now s = Except.error GameError.ArityMismatch)
    ∧ (∀ (tp sc lv : List Nat) (now : Nat) (s : GameState),
        tp.length = 10 → sc.length = 10 → lv.length = 10 →
        ∃ s', updateLeaderboard tp sc lv now s = Except.ok s'
          ∧ (∀ q, s'.pendingRewards q =
                    s.pendingRewards q + lbCredit s.leaderboardRewardPool tp q
              ∧ (s'.playerStats q).totalRewards =
                    (s.playerStats q).totalRewards + lbCredit s.leaderboardRewardPool tp q)
          ∧ lbCredit s.leaderboardRewardPool tp 0 = 0
          ∧ creditedTotal s.leaderboardRewardPool tp ≤ rankRewardTotal s.leaderboardRewardPool)
    ∧ (∀ pool : Nat,
        rankRewardTotal pool ≤ pool * rankWeights.sum / 100
        ∧ pool * rankWeights.sum / 100 ≤ rankRewardTotal pool + 9
        ∧ rankRewardTotal pool ≤ pool) := by
  refine ⟨?_, ?_, ?_⟩
  · intro tp sc lv now s h
    unfold updateLeaderboard
    rcases h with h | h | h
    · rw [if_pos (by omega)]
    · by_cases htp : tp.length ≠ 10
      · rw [if_pos htp]
      · rw [if_neg htp, if_pos (by omega)]
    · by_cases htp : tp.length ≠ 10
      · rw [if_pos htp]
      · rw [if_neg htp, if_pos (by omega)]
  · intro tp sc lv now s htp hsc hlv
    unfold updateLeaderboard
    rw [if_neg (by omega), if_neg (not_not_intro ⟨hsc, hlv⟩)]
    obtain ⟨hr, hd, hc, hq⟩ := lb_foldl_fields s.leaderboardRewardPool tp sc lv (List.range 10) s
    refine ⟨_, rfl, ?_, ?_, ?_⟩
    · intro q
      obtain ⟨hq1, hq2, _⟩ := hq q
      exact ⟨hq1, hq2⟩
    · simp [lbCredit, lbCreditList]
    · unfold creditedTotal rankRewardTotal
      exact sum_map_filter_le _ _ _
  · intro pool
    have hsum : rankWeights.sum = 100 := by decide
    have h : rankRewardTotal pool =
        pool * 30 / 100 + pool * 20 / 100 + pool * 15 / 100 + pool * 10 / 100 +
        pool * 8 / 100 + pool * 6 / 100 + pool * 4 / 100 + pool * 3 / 100 +
        pool * 2 / 100 + pool * 2 / 100 := by
      simp [rankRewardTotal, rankReward, rankWeights, List.range_succ]
      omega
    rw [h, hsum]
    refine ⟨by omega, by omega, by omega⟩

/-- C7 witness: a 2-entry call fails with ArityMismatch; a full 10-entry
call on the deployed pool (`1 ether`) credits by the 30/20/15/10/8/6/4/3/2/2
table; the table bounds hold at `pool = 10^18`. -/
theorem leaderboard_payout_weights_witness :
    (((([1, 2] : List Nat).length < 10) ∨ (([] : List Nat).length < 10) ∨
        (([] : List Nat).length < 10)) ∧
      updateLeaderboard [1, 2] [] [] 0 initState = Except.error GameError.ArityMismatch)
    ∧ (∃ s', updateLeaderboard [1, 2, 3, 4, 5, 6, 7, 8, 9, 0]
               [100, 90, 80, 70, 60, 50, 40, 30, 20, 10] [10, 9, 8, 7, 6, 5, 4, 3, 2, 1]
               0 initState = Except.ok s'
        ∧ (∀ q, s'.pendingRewards q =
                  initState.pendingRewards q +
                    lbCredit initState.leaderboardRewardPool [1, 2, 3, 4, 5, 6, 7, 8, 9, 0] q
            ∧ (s'.playerStats q).totalRewards =
                  (initState.playerStats q).totalRewards +
                    lbCredit initState.leaderboardRewardPool [1, 2, 3, 4, 5, 6, 7, 8, 9, 0] q)
        ∧ lbCredit initState.leaderboardRewardPool [1, 2, 3, 4, 5, 6, 7, 8, 9, 0] 0 = 0
        ∧ creditedTotal initState.leaderboardRewardPool [1, 2, 3, 4, 5, 6, 7, 8, 9, 0] ≤
            rankRewardTotal initState.leaderboardRewardPool)
    ∧ (rankRewardTotal 1000000000000000000 ≤ 1000000000000000000 * rankWeights.sum / 100
      ∧ 1000000000000000000 * rankWeights.sum / 100 ≤ rankRewardTotal 1000000000000000000 + 9
      ∧ rankRewardTotal 1000000000000000000 ≤ 1000000000000000000) :=
  ⟨⟨Or.inl (by decide), leaderboard_payout_weights.1 [1, 2] [] [] 0 initState
      (Or.inl (by decide))⟩,
   leaderboard_payout_weights.2.1 [1, 2, 3, 4, 5, 6, 7, 8, 9, 0]
     [100, 90, 80, 70, 60, 50, 40, 30, 20, 10] [10, 9, 8, 7, 6, 5, 4, 3, 2, 1] 0 initState
     (by decide) (by decide) (by decide),
   leaderboard_payout_weights.2.2 1000000000000000000⟩

/-- C3 (amended): an insufficient escrow balance at withdrawal time is a
hard failure and never a partial payout — `withdrawReward` fails with
InsufficientFunds whenever the balance is below the pending amount, and a
successful withdrawal always pays the full pending amount out of a
covering balance.  The claim's invariant form — that the sum of
`pendingRewards` over all players never exceeds the escrowed balance —
fails on the code, since reward credits never check the balance: see the
counterexample. -/
theorem no_partial_payout (s : GameState) (player : Nat) :
    (s.balance < s.pendingRewards player →
      withdrawReward player s = Except.error GameError.InsufficientFunds)
    ∧ (∀ amt s', withdrawReward player s = Except.ok (amt, s') →
        amt = s.pendingRewards player
        ∧ s.pendingRewards player ≤ s.balance
        ∧ s'.balance = s.balance - amt
        ∧ s'.pendingRewards player = 0) := by
  constructor
  · intro hb
    unfold withdrawReward
    rw [if_neg (by omega), if_pos hb]
  · intro amt s' h
    unfold withdrawReward at h
    by_cases h0 : s.pendingRewards player = 0
    · rw [if_pos h0] at h
      exact Except.noConfusion h
    · rw [if_neg h0] at h
      by_cases hb : s.balance < s.pendingRewards player
      · rw [if_pos hb] at h
        exact Except.noConfusion h
      · rw [if_neg hb] at h
        injection h with h
        injection h with h1 h2
        subst h1
        subst h2
        exact ⟨rfl, by omega, rfl, setFun_same _ _ _⟩

/-- C3 witness: with `5 wei` pending and `3 wei` escrowed the withdrawal
is refused outright; with `10 wei` escrowed it pays the full `5 wei`. -/
theorem no_partial_payout_witness :
    (pendingShortState.balance < pendingShortState.pendingRewards 1 ∧
      withdrawReward 1 pendingShortState = Except.error GameError.InsufficientFunds)
    ∧ (withdrawReward 1 pendingCoveredState = Except.ok (5, afterWithdrawState) ∧
      5 = pendingCoveredState.pendingRewards 1
      ∧ pendingCoveredState.pendingRewards 1 ≤ pendingCoveredState.balance
      ∧ afterWithdrawState.balance = pendingCoveredState.balance - 5
      ∧ afterWithdrawState.pendingRewards 1 = 0) :=
  ⟨⟨by decide, (no_partial_payout pendingShortState 1).1 (by decide)⟩,
   rfl, (no_partial_payout pendingCoveredState 1).2 5 afterWithdrawState rfl⟩

/-- C3 counterexample: the invariant as frozen is violated in a reachable
state.  On the fresh, never-funded contract (balance `0`), one verified
perfect `recordInfiniteRound` credits player 1 with `1.65e15 wei` of
pending rewards, so the total withdrawable amount exceeds the escrowed
balance. -/
theorem pending_exceeds_balance_cex :
    Reachable verifiedRoundState
    ∧ verifiedRoundState.balance < totalPendingUpTo verifiedRoundState 2 := by
  constructor
  · exact Reachable.step Reachable.init
      (Step.recordInfinite 1 0 2 1 1 0 1000 false true 0 rfl)
  · decide

lemma allRoundRewards_append (p : Nat) (rounds : List Round) (r : Round) :
    allRoundRewards p (rounds ++ [r]) =
      allRoundRewards p rounds + (if r.player = p then r.reward else 0) := by
  unfold allRoundRewards
  rw [List.filter_append, List.map_append, List.sum_append]
  congr 1
  rw [List.filter_cons, List.filter_nil]
  by_cases h : r.player = p
  · rw [if_pos (by simpa using h), if_pos h]
    simp
  · rw [if_neg (by simpa using h), if_neg h]
    simp

lemma creditedRoundRewards_append (p : Nat) (rounds : List Round) (r : Round) :
    creditedRoundRewards p (rounds ++ [r]) =
      creditedRoundRewards p rounds +
        (if r.player = p ∧ r.verified = true then r.reward else 0) := by
  unfold creditedRoundRewards
  rw [List.filter_append, List.map_append, List.sum_append]
  congr 1
  rw [List.filter_cons, List.filter_nil]
  by_cases h : r.player = p ∧ r.verified = true
  · rw [if_pos (by simp [h.1, h.2]), if_pos h]
    simp
  · rw [if_neg (by simpa using h), if_neg h]
    simp

lemma ledgerInv_step {s s' : GameState} (hInv : LedgerInv s) (hs : Step s s') :
    LedgerInv s' := by
  obtain ⟨h1, h2, h3⟩ := hInv
  cases hs with
  | recordInfinite player score gridSize steps cs e l te v now h =>
    unfold recordInfiniteRound at h
    split at h
    · exact Except.noConfusion h
    split at h
    · exact Except.noConfusion h
    split at h
    · exact Except.noConfusion h
    split at h
    · exact Except.noConfusion h
    next reward heq =>
    dsimp only at h
    by_cases hcred : v = true ∧ cs = steps ∧ te = false
    · rw [if_pos hcred] at h
      by_cases hlvl : 255 ≤ (if (s.playerStats player).currentLevel = 0 then 1
                             else (s.playerStats player).currentLevel)
      · rw [if_pos hlvl] at h
        exact Except.noConfusion h
      · rw [if_neg hlvl] at h
        injection h with h
        subst h
        refine ⟨?_, h2, h3⟩
        intro q
        dsimp only
        rw [creditedRoundRewards_append]
        by_cases hq : q = player
        · subst hq
          rw [setFun_same]
          dsimp only
          rw [if_pos ⟨rfl, hcred.1⟩]
          have := h1 q
          omega
        · rw [setFun_other _ _ _ _ hq, if_neg (fun hc => hq hc.1.symm)]
          have := h1 q
          omega
    · rw [if_neg hcred] at h
      injection h with h
      subst h
      refine ⟨?_, h2, h3⟩
      intro q
      dsimp only
      rw [creditedRoundRewards_append]
      by_cases hq : q = player
      · subst hq
        rw [setFun_same]
        dsimp only
        by_cases hv : v = true
        · have hnq : ¬(te = false ∧ cs = steps) := fun hc => hcred ⟨hv, hc.2, hc.1⟩
          rw [if_neg hnq] at heq
          injection heq with heq
          rw [if_pos ⟨rfl, hv⟩, ← heq]
          have := h1 q
          omega
        · rw [if_neg (fun hc => hv hc.2)]
          have := h1 q
          omega
      · rw [setFun_other _ _ _ _ hq, if_neg (fun hc => hq hc.1.symm)]
        have := h1 q
        omega
  | recordDaily player date score cs ts e l te v now h =>
    unfold recordDailyChallenge at h
    dsimp only at h
    split at h
    · exact Except.noConfusion h
    next hdate =>
    split at h
    · exact Except.noConfusion h
    next hdone =>
    split at h
    · exact Except.noConfusion h
    next hver =>
    split at h
    · exact Except.noConfusion h
    next hperf =>
    injection h with h
    subst h
    push_neg at hdate
    have hv : v = true := by
      cases v
      · exact absurd rfl hver
      · rfl
    refine ⟨?_, ?_, ?_⟩
    · intro q
      dsimp only
      rw [creditedRoundRewards_append]
      by_cases hq : q = player
      · subst hq
        rw [setFun_same]
        dsimp only
        rw [if_pos ⟨rfl, hv⟩]
        have := h1 q
        omega
      · rw [setFun_other _ _ _ _ hq, if_neg (fun hc => hq hc.1.symm)]
        have := h1 q
        omega
    · intro d
      dsimp only
      by_cases hd : d = date
      · subst hd
        rw [setFun_same]
        dsimp only
        exact h2 d
      · rw [setFun_other _ _ _ _ hd]
        exact h2 d
    · intro d p
      dsimp only
      by_cases hd : d = date
      · subst hd
        rw [setFun_same]
        dsimp only
        intro _
        exact hdate
      · rw [setFun_other _ _ _ _ hd]
        exact h3 d p
  | updateLb tp sc lv now h =>
    unfold updateLeaderboard at h
    split at h
    · exact Except.noConfusion h
    split at h
    · exact Except.noConfusion h
    injection h with h
    subst h
    obtain ⟨hr, hd, hc, hq⟩ := lb_foldl_fields s.leaderboardRewardPool tp sc lv (List.range 10) s
    refine ⟨?_, ?_, ?_⟩
    · intro q
      obtain ⟨_, hq2, hq3⟩ := hq q
      dsimp only
      rw [hq2, hq3, hr]
      have := h1 q
      omega
    · intro d
      dsimp only
      rw [hd, hc]
      exact h2 d
    · intro d p
      dsimp only
      rw [hd]
      exact h3 d p
  | withdraw player amount h =>
    unfold withdrawReward at h
    dsimp only at h
    split at h
    · exact Except.noConfusion h
    split at h
    · exact Except.noConfusion h
    injection h with h
    injection h with ha hb
    subst hb
    exact ⟨h1, h2, h3⟩
  | setDaily date gridSize steps showDuration intervalBetween timeLimitMs =>
    unfold setDailyChallenge
    refine ⟨h1, ?_, ?_⟩
    · intro d
      dsimp only
      by_cases hd : d = date
      · subst hd
        rw [setFun_same, setFun_same]
        dsimp only
        constructor
        · intro _
          exact Or.inl rfl
        · intro _
          rfl
      · rw [setFun_other _ _ _ _ hd, setFun_other _ _ _ _ hd]
        exact h2 d
    · intro d p
      dsimp only
      by_cases hd : d = date
      · subst hd
        rw [setFun_same]
        dsimp only
        intro _
        rfl
      · rw [setFun_other _ _ _ _ hd]
        exact h3 d p
  | fundDaily date msgValue =>
    unfold fundDailyChallenge
    refine ⟨h1, ?_, ?_⟩
    · intro d
      dsimp only
      by_cases hd : d = date
      · subst hd
        rw [setFun_same]
        dsimp only
        exact h2 d
      · rw [setFun_other _ _ _ _ hd]
        exact h2 d
    · intro d p
      dsimp only
      by_cases hd : d = date
      · subst hd
        rw [setFun_same]
        dsimp only
        exact h3 d p
      · rw [setFun_other _ _ _ _ hd]
        exact h3 d p
  | fund msgValue => exact ⟨h1, h2, h3⟩
  | setBaseReward v => exact ⟨h1, h2, h3⟩
  | setDailyReward v => exact ⟨h1, h2, h3⟩
  | setLbPool v => exact ⟨h1, h2, h3⟩
  | emergency => exact ⟨h1, h2, h3⟩

lemma ledgerInv_init : LedgerInv initState := by
  refine ⟨?_, ?_, ?_⟩
  · intro p
    simp [initState, initPlayerStats, creditedRoundRewards]
  · intro d
    simp [initState, initDailyChallenge, eq_comm]
  · intro d p h
    simp [initState, initDailyChallenge] at h

lemma reachable_ledgerInv {s : GameState} (hs : Reachable s) : LedgerInv s := by
  induction hs with
  | init => exact ledgerInv_init
  | step _ hstep ih => exact ledgerInv_step ih hstep

/-- C2 (amended): in every reachable ledger state, every player's
`totalRewards` equals the sum of the `reward` fields of that player's
VERIFIED settled rounds plus the leaderboard payouts credited to that
player.  The claim as frozen — summing over ALL of the player's settled
rounds — fails on the code, because an unverified qualifying round stores
the computed reward in its round record without crediting it: see the
counterexample. -/
theorem totalRewards_accounting (s : GameState) (hs : Reachable s) (p : Nat) :
    (s.playerStats p).totalRewards = creditedRoundRewards p s.rounds + s.lbPayouts p :=
  (reachable_ledgerInv hs).1 p

/-- C2 witness: after one verified perfect round on the fresh contract,
player 1's `totalRewards` is `1.65e15 wei`, exactly the one verified
round's reward plus zero leaderboard payouts. -/
theorem totalRewards_accounting_witness :
    Reachable verifiedRoundState
    ∧ (verifiedRoundState.playerStats 1).totalRewards =
        creditedRoundRewards 1 verifiedRoundState.rounds + verifiedRoundState.lbPayouts 1
    ∧ (verifiedRoundState.playerStats 1).totalRewards = 1650000000000000 := by
  have hreach : Reachable verifiedRoundState :=
    Reachable.step Reachable.init (Step.recordInfinite 1 0 2 1 1 0 1000 false true 0 rfl)
  exact ⟨hreach, totalRewards_accounting verifiedRoundState hreach 1, by decide⟩

/-- C2 counterexample: the claim as frozen fails in a reachable state.  A
perfect in-time round submitted with `verified = false` stores reward
`1.65e15 wei` in its round record but credits nothing, so `totalRewards`
(still `0`) differs from the sum of the reward fields of all settled
rounds plus leaderboard payouts. -/
theorem totalRewards_accounting_cex :
    Reachable unverifiedRoundState
    ∧ (unverifiedRoundState.playerStats 1).totalRewards ≠
        allRoundRewards 1 unverifiedRoundState.rounds + unverifiedRoundState.lbPayouts 1 := by
  constructor
  · exact Reachable.step Reachable.init (Step.recordInfinite 1 0 2 1 1 0 1000 false false 0 rfl)
  · decide

/-- C5 (amended): `recordDailyChallenge` fails with NotInitialized for
every NONZERO date with no configured challenge (for date `0` the
uninitialised storage slot satisfies the `challenge.date == date` check,
so the call is not rejected — see the counterexample); fails with
AlreadyCompleted whenever the player already completed that date,
regardless of the inputs; and fails with NotVerified unless
`verified ∧ correctSteps = totalSteps ∧ ¬timeExpired` once the first two
guards pass.  By the all-or-nothing revert semantics of the embedding, a
failing call mutates no state. -/
theorem daily_challenge_guards :
    (∀ (s : GameState), Reachable s →
      ∀ (player date score cs ts e l : Nat) (te v : Bool) (now : Nat),
        date ≠ 0 → s.configured date = false →
        recordDailyChallenge player date score cs ts e l te v now s =
          Except.error GameError.NotInitialized)
    ∧ (∀ (s : GameState), Reachable s →
      ∀ (player date score cs ts e l : Nat) (te v : Bool) (now : Nat),
        (s.dailyChallenges date).hasCompleted player = true →
        recordDailyChallenge player date score cs ts e l te v now s =
          Except.error GameError.AlreadyCompleted)
    ∧ (∀ (s : GameState) (player date score cs ts e l : Nat) (te v : Bool) (now : Nat),
        (s.dailyChallenges date).date = date →
        (s.dailyChallenges date).hasCompleted player = false →
        ¬(v = true ∧ cs = ts ∧ te = false) →
        recordDailyChallenge player date score cs ts e l te v now s =
          Except.error GameError.NotVerified) := by
  refine ⟨?_, ?_, ?_⟩
  · intro s hs player date score cs ts e l te v now hdz hcfg
    have hiff := (reachable_ledgerInv hs).2.1 date
    have hne : (s.dailyChallenges date).date ≠ date := by
      intro hEq
      rcases hiff.mp hEq with hc | h0
      · rw [hcfg] at hc
        exact Bool.noConfusion hc
      · exact hdz h0
    unfold recordDailyChallenge
    dsimp only
    rw [if_pos hne]
  · intro s hs player date score cs ts e l te v now hdone
    have hdq : (s.dailyChallenges date).date = date :=
      (reachable_ledgerInv hs).2.2 date player hdone
    unfold recordDailyChallenge
    dsimp only
    rw [if_neg (not_not_intro hdq), if_pos hdone]
  · intro s player date score cs ts e l te v now hdq hdone hnv
    unfold recordDailyChallenge
    dsimp only
    rw [if_neg (not_not_intro hdq), if_neg (by simp [hdone])]
    by_cases hv : v = false
    · rw [if_pos hv]
    · rw [if_neg hv]
      have hvt : v = true := by
        cases v
        · exact absurd rfl hv
        · rfl
      rw [if_pos (fun hc => hnv ⟨hvt, hc⟩)]

/-- C5 witness: date `1` unconfigured on the fresh contract is rejected
with NotInitialized; a completed (date, player) pair is rejected with
AlreadyCompleted whatever the inputs; an unverified run on the configured
date is rejected with NotVerified. -/
theorem daily_challenge_guards_witness :
    ((1 : Nat) ≠ 0 ∧ initState.configured 1 = false ∧
      recordDailyChallenge 1 1 0 0 0 0 0 false true 0 initState =
        Except.error GameError.NotInitialized)
    ∧ ((dailyDoneState.dailyChallenges 20240101).hasCompleted 1 = true ∧
      recordDailyChallenge 1 20240101 0 0 5 0 0 true false 0 dailyDoneState =
        Except.error GameError.AlreadyCompleted)
    ∧ ((dailyCfgState.dailyChallenges 20240101).date = 20240101 ∧
      (dailyCfgState.dailyChallenges 20240101).hasCompleted 1 = false ∧
      recordDailyChallenge 1 20240101 100 8 8 1000 60000 false false 0 dailyCfgState =
        Except.error GameError.NotVerified) := by
  have hreach1 : Reachable dailyCfgState :=
    Reachable.step Reachable.init (Step.setDaily 20240101 4 8 400 250 60000)
  have hreach2 : Reachable dailyDoneState :=
    Reachable.step hreach1 (Step.recordDaily 1 20240101 100 8 8 1000 60000 false true 0 rfl)
  refine ⟨⟨by decide, rfl, ?_⟩, ⟨by decide, ?_⟩, ⟨by decide, by decide, ?_⟩⟩
  · exact daily_challenge_guards.1 initState Reachable.init 1 1 0 0 0 0 0 false true 0
      (by decide) rfl
  · exact daily_challenge_guards.2.1 dailyDoneState hreach2 1 20240101 0 0 5 0 0 true false 0
      (by decide)
  · exact daily_challenge_guards.2.2 dailyCfgState 1 20240101 100 8 8 1000 60000 false false 0
      (by decide) (by decide) (by simp)

/-- C5 counterexample: for date `0` the claim fails.  The fresh contract
has no challenge configured for date `0`, yet `recordDailyChallenge`
succeeds (the zero-initialised slot passes `challenge.date == date`) and
even credits the fixed `0.01 ether` daily reward. -/
theorem daily_zero_date_not_rejected :
    initState.configured 0 = false
    ∧ recordDailyChallenge 1 0 0 0 0 0 0 false true 0 initState = Except.ok zeroDateState
    ∧ zeroDateState.pendingRewards 1 = 10000000000000000 :=
  ⟨rfl, rfl, by decide⟩
